import Mathlib

/-!
A verification development for the distributed log-analyzer repository.

The Python sources are shallowly embedded:

* `src/log_entry.py` — `LogEntry.from_line` (the line parser), including a
  faithful executable model of Python's `datetime.strptime` restricted to the
  fixed format string `"%Y-%m-%d %H:%M:%S.%f"` used by the source
  (`datetime.strptime` itself is standard-library code, modelled from CPython's
  `_strptime` regex semantics for exactly those directives).
* `src/worker.py` — `Worker.process_work` (per-chunk counting).
* `src/analyzer.py` — `Analyzer.update_metrics` (merging chunk summaries).
* `src/coordinator.py` — `Coordinator.distribute_work`,
  `Coordinator.handle_worker_failure` / `redistribute_failed_tasks`.

Exceptions become `Option`; Python `dict`s keep insertion order and are
embedded as association lists, with Python's order-insensitive `dict` equality
expressed by `lookup`-equality; Python `int`/`float` arithmetic on metrics is
embedded with `Nat`/`Int`/`Rat` (exact arithmetic).  Network and file I/O are
abstracted away: a chunk is its string content, a dispatch is the
(worker, task) pair the coordinator sends.
-/

namespace LogAnalyzer

/-! ## Python string primitives -/

/-- ASCII decimal digit, as matched by the `\d`-style character classes in
CPython's `_strptime` regexes (non-ASCII digits are not modelled). -/
def pyDigit (c : Char) : Bool :=
  '0' ≤ c ∧ c ≤ '9'

/-- Numeric value of a digit character. -/
def digitVal (c : Char) : Nat :=
  c.toNat - 48

/-- ASCII whitespace, as matched by Python's `\s` and `str.strip`
(non-ASCII whitespace is not modelled). -/
def pyWs (c : Char) : Bool :=
  c = ' ' ∨ c = '\t' ∨ c = '\n' ∨ c = '\r' ∨ c.toNat = 0x0b ∨ c.toNat = 0x0c

/-- Core of `str.split(' ', maxsplit)`: split on every single space character,
keeping empty parts, performing at most `maxsplit` splits; once the budget is
exhausted the whole remainder (spaces included) is the final part. -/
def pySplitSpAux : List Char → Nat → List Char → List (List Char)
  | [], _, acc => [acc.reverse]
  | c :: rest, n, acc =>
    if c = ' ' then
      match n with
      | 0 => [acc.reverse ++ c :: rest]
      | m + 1 => acc.reverse :: pySplitSpAux rest m []
    else pySplitSpAux rest n (c :: acc)

/-- Python `line.split(' ', maxsplit)`. -/
def pySplitSpace (s : String) (maxsplit : Nat) : List String :=
  (pySplitSpAux s.data maxsplit []).map List.asString

/-- Core of `str.split(' ')` with no maxsplit (split on every space). -/
def pySplitSpAllAux : List Char → List Char → List (List Char)
  | [], acc => [acc.reverse]
  | c :: rest, acc =>
    if c = ' ' then acc.reverse :: pySplitSpAllAux rest []
    else pySplitSpAllAux rest (c :: acc)

/-- Python `message.split(' ')` (unbounded, keeps empty parts). -/
def pySplitSpaceAll (s : String) : List String :=
  (pySplitSpAllAux s.data []).map List.asString

/-- The line-boundary characters recognised by Python `str.splitlines`. -/
def pyLineBreak (c : Char) : Bool :=
  c = '\n' ∨ c = '\r' ∨ c.toNat = 0x0b ∨ c.toNat = 0x0c ∨
  c.toNat = 0x1c ∨ c.toNat = 0x1d ∨ c.toNat = 0x1e ∨
  c.toNat = 0x85 ∨ c.toNat = 0x2028 ∨ c.toNat = 0x2029

/-- Core of `str.splitlines`: `"\r\n"` counts as a single boundary and a
trailing boundary produces no empty final line. -/
def pySplitlinesAux : List Char → List Char → List (List Char)
  | [], [] => []
  | [], acc => [acc.reverse]
  | '\r' :: '\n' :: rest, acc => acc.reverse :: pySplitlinesAux rest []
  | c :: rest, acc =>
    if pyLineBreak c then acc.reverse :: pySplitlinesAux rest []
    else pySplitlinesAux rest (c :: acc)

/-- Python `chunk.splitlines()`. -/
def pySplitlines (s : String) : List String :=
  (pySplitlinesAux s.data []).map List.asString

/-- Digit run of a Python integer literal accepted by `int(str)`: decimal
digits with single underscores allowed strictly between digits. -/
def pyIntDigitsAux : Nat → List Char → Option Nat
  | v, [] => some v
  | v, c :: rest =>
    if pyDigit c then pyIntDigitsAux (10 * v + digitVal c) rest
    else if c = '_' then
      match rest with
      | [] => none
      | c2 :: rest2 =>
        if pyDigit c2 then pyIntDigitsAux (10 * v + digitVal c2) rest2 else none
    else none

/-- Python `int(s)` for a `str` argument: optional surrounding whitespace,
optional sign, then a nonempty digit run (underscores between digits);
`ValueError` becomes `none`. -/
def pyInt (s : String) : Option Int :=
  let t := ((s.data.dropWhile pyWs).reverse.dropWhile pyWs).reverse
  match t with
  | [] => none
  | '+' :: rest =>
    match rest with
    | [] => none
    | c :: _ =>
      if pyDigit c then (pyIntDigitsAux 0 rest).map Int.ofNat else none
  | '-' :: rest =>
    match rest with
    | [] => none
    | c :: _ =>
      if pyDigit c then (pyIntDigitsAux 0 rest).map (fun n => -(n : Int)) else none
  | c :: _ =>
    if pyDigit c then (pyIntDigitsAux 0 t).map Int.ofNat else none

/-- Python `tok[:-2]`: drop the final two characters (empty if `len ≤ 2`). -/
def pyDropLast2 (s : String) : String :=
  List.asString (s.data.take (s.data.length - 2))

/-! ## `datetime.strptime` for the fixed format `"%Y-%m-%d %H:%M:%S.%f"`

Modelled from CPython `_strptime`: each directive compiles to a regex
(`%Y` = four digits; `%m` = `1[0-2]|0[1-9]|[1-9]`; `%d` =
`3[01]|[12]\d|0[1-9]|[1-9]`; `%H` = `2[0-3]|[0-1]\d|\d`; `%M` = `[0-5]\d|\d`;
`%S` = `6[0-1]|[0-5]\d|\d`; `%f` = `[0-9]{1,6}` padded right to microseconds);
literal whitespace in the format matches one or more whitespace characters;
the whole string must be consumed; finally the `datetime` constructor
re-validates the fields (day against month length, second `≤ 59`, year `≥ 1`),
raising `ValueError` (here: `none`) otherwise. -/

/-- A parsed `datetime` value (the only fields the source ever uses). -/
structure Timestamp where
  year : Nat
  month : Nat
  day : Nat
  hour : Nat
  minute : Nat
  second : Nat
  microsecond : Nat
deriving DecidableEq, Repr

/-- Consume exactly four digits (the `%Y` directive). -/
def parse4Digits : List Char → Option (Nat × List Char)
  | c1 :: c2 :: c3 :: c4 :: rest =>
    if pyDigit c1 ∧ pyDigit c2 ∧ pyDigit c3 ∧ pyDigit c4 then
      some (((digitVal c1 * 10 + digitVal c2) * 10 + digitVal c3) * 10 + digitVal c4, rest)
    else none
  | _ => none

/-- Consume a one- or two-digit number in the style of the `_strptime`
alternations: if the next two characters are digits, the two-digit value must
lie in `[lo, hi]`; otherwise a single digit with value `≥ lo` is taken.
(Backtracking to the one-digit alternative after two digits can never help,
because the following format character is never a digit.) -/
def parseNum2or1 (lo hi : Nat) : List Char → Option (Nat × List Char)
  | [] => none
  | c1 :: rest1 =>
    if pyDigit c1 then
      match rest1 with
      | c2 :: rest2 =>
        if pyDigit c2 then
          let v := digitVal c1 * 10 + digitVal c2
          if lo ≤ v ∧ v ≤ hi then some (v, rest2) else none
        else if lo ≤ digitVal c1 then some (digitVal c1, rest1) else none
      | [] => if lo ≤ digitVal c1 then some (digitVal c1, []) else none
    else none

/-- Consume a literal character of the format. -/
def expectChar (c : Char) : List Char → Option (List Char)
  | [] => none
  | c1 :: rest => if c1 = c then some rest else none

/-- Consume the literal whitespace of the format: one or more whitespace
characters (greedy; the following directive never matches whitespace). -/
def expectWs : List Char → Option (List Char)
  | [] => none
  | c :: rest => if pyWs c then some (rest.dropWhile pyWs) else none

/-- Value of a digit string. -/
def natOfDigits (cs : List Char) : Nat :=
  cs.foldl (fun a c => 10 * a + digitVal c) 0

/-- The `%f` directive at the end of the format: the entire remainder must be
one to six digits, right-padded with zeros to microseconds (anything left over
raises `ValueError: unconverted data remains`). -/
def parseFracTail (cs : List Char) : Option Nat :=
  if cs ≠ [] ∧ cs.length ≤ 6 ∧ cs.all pyDigit then
    some (natOfDigits cs * 10 ^ (6 - cs.length))
  else none

/-- Gregorian leap year, as in Python's `calendar`/`datetime`. -/
def isLeap (y : Nat) : Bool :=
  y % 4 = 0 ∧ (y % 100 ≠ 0 ∨ y % 400 = 0)

/-- Length of a month, used by the `datetime` constructor's day validation. -/
def daysInMonth (y m : Nat) : Nat :=
  if m = 2 then (if isLeap y then 29 else 28)
  else if m = 4 ∨ m = 6 ∨ m = 9 ∨ m = 11 then 30
  else 31

/-- `datetime.strptime(s, "%Y-%m-%d %H:%M:%S.%f")`, `ValueError` as `none`. -/
def strptimeTs (s : String) : Option Timestamp := do
  let (y, cs) ← parse4Digits s.data
  let cs ← expectChar '-' cs
  let (mo, cs) ← parseNum2or1 1 12 cs
  let cs ← expectChar '-' cs
  let (d, cs) ← parseNum2or1 1 31 cs
  let cs ← expectWs cs
  let (h, cs) ← parseNum2or1 0 23 cs
  let cs ← expectChar ':' cs
  let (mi, cs) ← parseNum2or1 0 59 cs
  let cs ← expectChar ':' cs
  let (sec, cs) ← parseNum2or1 0 61 cs
  let cs ← expectChar '.' cs
  let us ← parseFracTail cs
  if 1 ≤ y ∧ d ≤ daysInMonth y mo ∧ sec ≤ 59 then
    some ⟨y, mo, d, h, mi, sec, us⟩
  else none

/-! ## `LogEntry.from_line` (src/log_entry.py) -/

/-- A parsed log line.  The `metrics` dict of the source can only ever hold
the single key `"response_time"`, so it is embedded as an `Option Int`
(`none` = key absent). -/
structure LogEntry where
  timestamp : Timestamp
  level : String
  message : String
  response_time : Option Int
deriving DecidableEq, Repr

/-- Python `"ms" in message`: substring containment of the literal `"ms"`. -/
def hasMs : List Char → Bool
  | 'm' :: 's' :: _ => true
  | _ :: rest => hasMs rest
  | [] => false

/-- The metric-extraction attempt inside `from_line`:
`int(message.split(' ')[3][:-2])`, with `IndexError`/`ValueError` as `none`. -/
def extractResponseTime (message : String) : Option Int :=
  ((pySplitSpaceAll message).get? 3).bind (fun tok => pyInt (pyDropLast2 tok))

/-- `parts[i]` (defaulting, though the source only subscripts in bounds). -/
def partGet (parts : List String) (i : Nat) : String :=
  parts.getD i ""

/-- `LogEntry.from_line`.  `parts = line.split(' ', 3)`; fewer than four parts
or a timestamp `ValueError` returns `None` (here `none`); the `"ms" in message`
check guards the metric extraction, whose own failure is swallowed. -/
def from_line (line : String) : Option LogEntry :=
  let parts := pySplitSpace line 3
  if parts.length < 4 then none
  else
    match strptimeTs (partGet parts 0 ++ " " ++ partGet parts 1) with
    | none => none
    | some ts =>
      let level := partGet parts 2
      let message := partGet parts 3
      let rt := if hasMs message.data then
                  extractResponseTime message
                else none
      some ⟨ts, level, message, rt⟩

/-! ## Association-list dicts

Python `dict`s keep insertion order; `d[k] += c` / `d[k] = c` updates in place
or appends a fresh key at the end.  Python `dict` equality compares key sets
and values, ignoring insertion order, which is `lookupV`-equality here. -/

/-- `d[k] += c` against a `defaultdict(int)`-style dict (missing key counts
as `0` and is inserted at the end, as both the worker's `defaultdict` and the
aggregator's explicit in/else branch do). -/
def bumpKey {K : Type} [DecidableEq K] : List (K × Nat) → K → Nat → List (K × Nat)
  | [], k, c => [(k, c)]
  | (k1, v) :: rest, k, c =>
    if k1 = k then (k1, v + c) :: rest else (k1, v) :: bumpKey rest k c

/-- `d.get(k)` — first (unique) binding of `k`. -/
def lookupV {K : Type} [DecidableEq K] : List (K × Nat) → K → Option Nat
  | [], _ => none
  | (k1, v) :: rest, k => if k1 = k then some v else lookupV rest k

/-- Sum of all values of the dict. -/
def valSum {K : Type} (m : List (K × Nat)) : Nat :=
  (m.map (fun kv => kv.2)).sum

lemma lookupV_bumpKey {K : Type} [DecidableEq K] (m : List (K × Nat)) (k k2 : K)
    (c : Nat) :
    lookupV (bumpKey m k c) k2 =
      if k2 = k then some ((lookupV m k).getD 0 + c) else lookupV m k2 := by
  induction m with
  | nil =>
    by_cases h : k2 = k
    · subst h; simp [bumpKey, lookupV]
    · simp [bumpKey, lookupV, h, Ne.symm h]
  | cons p rest ih =>
    obtain ⟨k1, v⟩ := p
    by_cases h1 : k1 = k
    · subst h1
      by_cases h2 : k2 = k1
      · subst h2; simp [bumpKey, lookupV]
      · simp [bumpKey, lookupV, h2, Ne.symm h2]
    · by_cases h2 : k1 = k2
      · subst h2
        simp [bumpKey, lookupV, h1, Ne.symm h1]
      · simp [bumpKey, lookupV, h1, h2, ih]

lemma valSum_bumpKey {K : Type} [DecidableEq K] (m : List (K × Nat)) (k : K)
    (c : Nat) : valSum (bumpKey m k c) = valSum m + c := by
  induction m with
  | nil => simp [bumpKey, valSum]
  | cons p rest ih =>
    obtain ⟨k1, v⟩ := p
    by_cases h : k1 = k
    · simp [bumpKey, valSum, h]
      omega
    · simp [bumpKey, valSum, h] at ih ⊢
      omega

/-- Total count a list of dict items carries for key `k`. -/
def keyTot {K : Type} [DecidableEq K] : List (K × Nat) → K → Nat
  | [], _ => 0
  | (k1, c) :: rest, k => (if k1 = k then c else 0) + keyTot rest k

/-- Whether any item mentions key `k`. -/
def hasKeyB {K : Type} [DecidableEq K] : List (K × Nat) → K → Bool
  | [], _ => false
  | (k1, _) :: rest, k => k1 = k ∨ hasKeyB rest k

/-! ## `Worker.process_work` (src/worker.py)

The chunk is given by its string content (`file.seek`/`file.read` abstracted);
`process_work` splits it into lines, feeds each line to `LogEntry.from_line`,
and accumulates counters exactly as the source loop does.  The summary keeps
the internal `total_response_time` accumulator alongside the fields of the
reported `results` dict (the report itself carries only the derived
`avg_response_time`). -/

/-- The loop accumulators of `process_work`. -/
structure WAcc where
  request_times : List Timestamp
  error_count : Nat
  total_response_time : Int
  total_requests : Nat
deriving DecidableEq, Repr

/-- One iteration of the `for line in lines` loop: a falsy (`None`) parse
contributes nothing; otherwise count the request, remember the timestamp,
count `"ERROR"` (case-sensitive) and add `metrics["response_time"]` if set. -/
def procLine (acc : WAcc) (line : String) : WAcc :=
  match from_line line with
  | none => acc
  | some e =>
    { request_times := acc.request_times ++ [e.timestamp]
      total_requests := acc.total_requests + 1
      error_count := acc.error_count + (if e.level = "ERROR" then 1 else 0)
      total_response_time := acc.total_response_time +
        (match e.response_time with | some v => v | none => 0) }

/-- The result of processing one chunk (reported fields plus the worker's
internal `total_response_time` accumulator). -/
structure WorkerSummary where
  request_count : Nat
  error_count : Nat
  total_response_time : Int
  error_rate : Rat
  avg_response_time : Rat
  request_count_per_second : List (Timestamp × Nat)
deriving DecidableEq, Repr

/-- `request_time.replace(microsecond=0)` — truncate to whole seconds. -/
def truncToSecond (t : Timestamp) : Timestamp :=
  { t with microsecond := 0 }

/-- `Worker.process_work` on the chunk's content. -/
def process_work (chunk : String) : WorkerSummary :=
  let lines := pySplitlines chunk
  let acc := lines.foldl procLine ⟨[], 0, 0, 0⟩
  let rcps := acc.request_times.foldl (fun m t => bumpKey m (truncToSecond t) 1) []
  { request_count := acc.total_requests
    error_count := acc.error_count
    total_response_time := acc.total_response_time
    error_rate := if acc.total_requests > 0 then
        (acc.error_count : Rat) / (acc.total_requests : Rat) else 0
    avg_response_time := if acc.total_requests > 0 then
        (acc.total_response_time : Rat) / (acc.total_requests : Rat) else 0
    request_count_per_second := rcps }

/-! ## `Analyzer.update_metrics` (src/analyzer.py)

The aggregator state and the incoming per-worker `new_data` dict.  The
analyzer reads `request_count`, `error_count`, `avg_response_time` and
`request_count_per_second` (the worker's `error_rate` entry is never read);
its bucket keys are the stringified timestamps of the worker's report.
Divisions are exact (`Rat`). -/

/-- The fields of `new_data` that `update_metrics` reads. -/
structure NewData where
  request_count : Nat
  error_count : Nat
  avg_response_time : Rat
  request_count_per_second : List (String × Nat)
deriving DecidableEq, Repr

/-- The analyzer's `self.metrics` state. -/
structure AggMetrics where
  total_requests : Nat
  total_errors : Nat
  total_response_time : Rat
  worker_count : Nat
  error_rate : Rat
  avg_response_time : Rat
  request_count_per_second : List (String × Nat)
deriving DecidableEq, Repr

/-- The state created by `Analyzer.__init__`. -/
def initMetrics : AggMetrics :=
  { total_requests := 0, total_errors := 0, total_response_time := 0
    worker_count := 0, error_rate := 0, avg_response_time := 0
    request_count_per_second := [] }

/-- The `for second, count in ... .items()` merge loop over the state dict
(generic in the key type; the analyzer instantiates it at `String`). -/
def mergeBuckets {K : Type} [DecidableEq K] (m items : List (K × Nat)) :
    List (K × Nat) :=
  items.foldl (fun m2 kv => bumpKey m2 kv.1 kv.2) m

/-- `Analyzer.update_metrics`: add the counts, reconstruct the chunk's total
response time as `avg_response_time * request_count`, merge the per-second
buckets, bump `worker_count`, and recompute `error_rate`/`avg_response_time`
only when `total_requests > 0` (otherwise they keep their previous values). -/
def update_metrics (st : AggMetrics) (d : NewData) : AggMetrics :=
  let tr := st.total_requests + d.request_count
  let te := st.total_errors + d.error_count
  let trt := st.total_response_time + d.avg_response_time * (d.request_count : Rat)
  let rcps := mergeBuckets st.request_count_per_second d.request_count_per_second
  { total_requests := tr, total_errors := te, total_response_time := trt
    worker_count := st.worker_count + 1
    error_rate := if tr > 0 then (te : Rat) / (tr : Rat) else st.error_rate
    avg_response_time := if tr > 0 then trt / (tr : Rat) else st.avg_response_time
    request_count_per_second := rcps }

/-- Python `dict` equality on every field of the analyzer state: all scalars
equal and the bucket dicts equal as key→value maps (insertion order is
irrelevant to `dict.__eq__`). -/
def AggEq (s t : AggMetrics) : Prop :=
  s.total_requests = t.total_requests ∧
  s.total_errors = t.total_errors ∧
  s.total_response_time = t.total_response_time ∧
  s.worker_count = t.worker_count ∧
  s.error_rate = t.error_rate ∧
  s.avg_response_time = t.avg_response_time ∧
  ∀ k, lookupV s.request_count_per_second k = lookupV t.request_count_per_second k

/-- Zero-padded rendering of a number (for `str(datetime)` keys). -/
def padNum (n : Nat) (w : Nat) : String :=
  let s := toString n
  List.asString (List.replicate (w - s.length) '0') ++ s

/-- Python `str(datetime_value)` as used for the JSON bucket keys of the
worker's report (microsecond part omitted when zero). -/
def tsStr (t : Timestamp) : String :=
  padNum t.year 4 ++ "-" ++ padNum t.month 2 ++ "-" ++ padNum t.day 2 ++ " " ++
  padNum t.hour 2 ++ ":" ++ padNum t.minute 2 ++ ":" ++ padNum t.second 2 ++
  (if t.microsecond = 0 then "" else "." ++ padNum t.microsecond 6)

/-- The `results` dict the worker reports, as the analyzer reads it. -/
def toNewData (w : WorkerSummary) : NewData :=
  { request_count := w.request_count
    error_count := w.error_count
    avg_response_time := w.avg_response_time
    request_count_per_second :=
      w.request_count_per_second.map (fun p => (tsStr p.1, p.2)) }

/-! ## Coordinator (src/coordinator.py)

`self.workers` maps worker id to `{"port": …, "healthy": …}`; `self.results`
is the map that `handle_worker_failure` pops the failed worker's entry from,
reading its `filepath`/`start`/`size` keys (the entry type here reflects those
accesses).  A dispatch is modelled as the (worker id, task) pair that
`send_chunk_to_worker` posts; the functions below return the list of
dispatches they perform. -/

/-- One entry of `self.workers`. -/
structure WorkerRec where
  port : Nat
  healthy : Bool
deriving DecidableEq, Repr

/-- The payload sent to a worker (`filepath`/`start`/`size`). -/
structure Task where
  filepath : String
  start : Nat
  size : Nat
deriving DecidableEq, Repr

/-- The coordinator's mutable state. -/
structure CoordState where
  workers : List (String × WorkerRec)
  results : List (String × Task)
  agg : AggMetrics
deriving DecidableEq, Repr

/-- The `available_workers` comprehension: ids of the healthy workers, in
registration (dict insertion) order. -/
def healthyIds (ws : List (String × WorkerRec)) : List String :=
  (ws.filter (fun p => p.2.healthy)).map (fun p => p.1)

/-- The chunking loop of `distribute_work`: `chunk_size = file_size // n`;
range `idx` starts at `idx * chunk_size` and has size `chunk_size`, except the
last range which extends to the end of the file. -/
def chunkRanges (file_size n : Nat) : List (Nat × Nat) :=
  let chunk_size := file_size / n
  (List.range n).map (fun idx =>
    (idx * chunk_size, if idx < n - 1 then chunk_size else file_size - idx * chunk_size))

/-- The observable outcome of `distribute_work`: the early return on an empty
worker pool (the `"No available workers"` report), or the dispatches made. -/
inductive DistOutcome
  | noAvailableWorkers
  | dispatched (assignments : List (String × Task))
deriving DecidableEq, Repr

/-- `Coordinator.distribute_work` (dispatch transport abstracted; a dispatch
failure is handled by `handle_worker_failure` below, as in the source's
`send_chunk_to_worker` exception handler). -/
def distribute_work (st : CoordState) (filepath : String) (file_size : Nat) :
    CoordState × DistOutcome :=
  let avail := healthyIds st.workers
  if avail.isEmpty then (st, .noAvailableWorkers)
  else
    let ranges := chunkRanges file_size avail.length
    (st, .dispatched ((avail.zip ranges).map
      (fun p => (p.1, ⟨filepath, p.2.1, p.2.2⟩))))

/-- `if worker_id in self.workers: self.workers[worker_id]["healthy"] = False`
(the registry dict has unique keys, so updating the binding in place is the
same as updating every binding of that key). -/
def markUnhealthy : List (String × WorkerRec) → String → List (String × WorkerRec)
  | [], _ => []
  | (k, r) :: rest, wid =>
    if k = wid then (k, { r with healthy := false }) :: markUnhealthy rest wid
    else (k, r) :: markUnhealthy rest wid

/-- `self.results.pop(worker_id, None)`: the removed entry (if any) and the
remaining map. -/
def popResult : List (String × Task) → String → Option Task × List (String × Task)
  | [], _ => (none, [])
  | (k, t) :: rest, wid =>
    if k = wid then (some t, rest)
    else
      let r := popResult rest wid
      (r.1, (k, t) :: r.2)

/-- `Coordinator.handle_worker_failure` followed by
`redistribute_failed_tasks`: mark the worker unhealthy, pop its `results`
entry, and — if one was present — send that identical task to **each**
currently-available worker in turn (the source loops over
`available_workers`); with no entry or no available workers, nothing is sent.
Returns the new state and the dispatches performed. -/
def handle_worker_failure (st : CoordState) (wid : String) :
    CoordState × List (String × Task) :=
  let ws := markUnhealthy st.workers wid
  let popped := popResult st.results wid
  let st2 : CoordState := { st with workers := ws, results := popped.2 }
  match popped.1 with
  | none => (st2, [])
  | some t => (st2, (healthyIds ws).map (fun w => (w, t)))

/-- A registry whose only worker is unhealthy. -/
def idleState : CoordState :=
  { workers := [("w1", ⟨9001, false⟩)], results := [], agg := initMetrics }

/-- `self.workers[wid]` after `markUnhealthy`. -/
def lookupW : List (String × WorkerRec) → String → Option WorkerRec
  | [], _ => none
  | (k, r) :: rest, wid => if k = wid then some r else lookupW rest wid

/-- A state in which three workers are healthy and the results map holds an
entry for `"w1"`. -/
def failSt : CoordState :=
  { workers := [("w1", ⟨9001, true⟩), ("w2", ⟨9002, true⟩), ("w3", ⟨9003, true⟩)]
    results := [("w1", ⟨"app.log", 0, 100⟩)], agg := initMetrics }

/-- Modelled from the spec's words (C3's "whitespace-delimited fields"):
Python `line.split()` with no separator — fields are maximal runs of
non-whitespace, empty fields discarded. -/
def pyWsFieldsAux : List Char → List Char → List (List Char)
  | [], [] => []
  | [], acc => [acc.reverse]
  | c :: rest, acc =>
    if pyWs c then
      match acc with
      | [] => pyWsFieldsAux rest []
      | _ => acc.reverse :: pyWsFieldsAux rest []
    else pyWsFieldsAux rest (c :: acc)

/-- The whitespace-delimited fields of a line. -/
def pyWsFields (s : String) : List String :=
  (pyWsFieldsAux s.data []).map List.asString

/-- Modelled from the spec's words (C4): the trailing integer immediately
preceding the first occurrence of the substring `"ms"` in the message — the
maximal digit run directly before that occurrence, if nonempty. -/
def specTrailingIntBeforeMsAux : List Char → List Char → Option Nat
  | digits, 'm' :: 's' :: _ =>
    match digits with
    | [] => none
    | _ => some (natOfDigits digits.reverse)
  | digits, c :: rest =>
    if pyDigit c then specTrailingIntBeforeMsAux (c :: digits) rest
    else specTrailingIntBeforeMsAux [] rest
  | _, [] => none

/-- The spec's described extraction: trailing integer immediately before
`"ms"`. -/
def specTrailingIntBeforeMs (message : String) : Option Nat :=
  specTrailingIntBeforeMsAux [] message.data

/-- First sample summary for the C5 witness. -/
def sampleD1 : NewData :=
  { request_count := 2, error_count := 1, avg_response_time := (127 : Rat) / 2
    request_count_per_second := [("2024-01-24 10:15:32", 2)] }

/-- Second sample summary for the C5 witness. -/
def sampleD2 : NewData :=
  { request_count := 1, error_count := 0, avg_response_time := 3
    request_count_per_second := [("2024-01-24 10:15:33", 1)] }

/-! ## Theorems -/

example : strptimeTs "2024-01-24 10:15:32.123" =
    some ⟨2024, 1, 24, 10, 15, 32, 123000⟩ := by decide

example : from_line "2024-01-24 10:15:32.123 INFO Request processed in 127ms" =
    some ⟨⟨2024, 1, 24, 10, 15, 32, 123000⟩, "INFO", "Request processed in 127ms",
          some 127⟩ := by decide

example : from_line "not-a-log-line" = none := by decide

example : chunkRanges 300 3 = [(0, 100), (100, 100), (200, 100)] := by decide

example : chunkRanges 7 3 = [(0, 2), (2, 2), (4, 3)] := by decide

/-- The `idx`-th range computed by `distribute_work`'s loop. -/
lemma chunkRanges_getD (S N i : Nat) (hi : i < N) :
    (chunkRanges S N).getD i (0, 0) =
      (i * (S / N), if i < N - 1 then S / N else S - i * (S / N)) := by
  simp [chunkRanges, List.getD_eq_getElem?_getD, List.getElem?_map,
    List.getElem?_range hi]

/-- C1: for every file size `S > 0` and worker count `N > 0`,
`distribute_work`'s partition (`chunkRanges`) yields `N` ranges; range `i`
starts at `i * (S / N)`; every range but the last has size `S / N`; the last
range absorbs the remainder `S - (N-1) * (S / N)`; every range stays inside
`[0, S)`; and every byte `x < S` lies in exactly one range (no gap, no
overlap).  In particular a 300-byte file with 3 healthy workers yields the
ranges `[0,100)`, `[100,200)`, `[200,300)`. -/
theorem distribute_work_partitions (S N : Nat) (hS : 0 < S) (hN : 0 < N) :
    (chunkRanges S N).length = N ∧
    (∀ i, i < N → ((chunkRanges S N).getD i (0, 0)).1 = i * (S / N)) ∧
    (∀ i, i + 1 < N → ((chunkRanges S N).getD i (0, 0)).2 = S / N) ∧
    ((chunkRanges S N).getD (N - 1) (0, 0)).2 = S - (N - 1) * (S / N) ∧
    (∀ i, i < N → ((chunkRanges S N).getD i (0, 0)).1 +
      ((chunkRanges S N).getD i (0, 0)).2 ≤ S) ∧
    (∀ x, x < S → ∃! i, i < N ∧
      ((chunkRanges S N).getD i (0, 0)).1 ≤ x ∧
      x < ((chunkRanges S N).getD i (0, 0)).1 + ((chunkRanges S N).getD i (0, 0)).2) ∧
    chunkRanges 300 3 = [(0, 100), (100, 100), (200, 100)] := by
  set q := S / N with hq
  have hNq : N * q ≤ S := by
    rw [hq, Nat.mul_comm]
    exact Nat.div_mul_le_self S N
  have hN1q : (N - 1) * q ≤ S :=
    le_trans (Nat.mul_le_mul_right q (Nat.sub_le N 1)) hNq
  refine ⟨by simp [chunkRanges], ?_, ?_, ?_, ?_, ?_, by decide⟩
  · intro i hi
    rw [chunkRanges_getD S N i hi]
  · intro i hi
    rw [chunkRanges_getD S N i (by omega)]
    simp only [← hq]
    rw [if_pos (by omega)]
  · rw [chunkRanges_getD S N (N - 1) (by omega)]
    simp only [← hq]
    rw [if_neg (by omega)]
  · intro i hi
    rw [chunkRanges_getD S N i hi]
    simp only [← hq]
    by_cases hlast : i < N - 1
    · rw [if_pos hlast]
      have : (i + 1) * q ≤ N * q := Nat.mul_le_mul_right q (by omega)
      have hiq : i * q + q = (i + 1) * q := by ring
      omega
    · rw [if_neg hlast]
      have : i * q ≤ (N - 1) * q := Nat.mul_le_mul_right q (by omega)
      omega
  · intro x hx
    have hkey : ∀ a b, a < b → b < N →
        (((chunkRanges S N).getD a (0, 0)).1 ≤ x ∧
          x < ((chunkRanges S N).getD a (0, 0)).1 + ((chunkRanges S N).getD a (0, 0)).2) →
        (((chunkRanges S N).getD b (0, 0)).1 ≤ x ∧
          x < ((chunkRanges S N).getD b (0, 0)).1 + ((chunkRanges S N).getD b (0, 0)).2) →
        False := by
      intro a b hab hbN ha hb
      rw [chunkRanges_getD S N a (by omega)] at ha
      rw [chunkRanges_getD S N b hbN] at hb
      simp only [← hq] at ha hb
      rw [if_pos (by omega : a < N - 1)] at ha
      have h1 : (a + 1) * q ≤ b * q := Nat.mul_le_mul_right q (by omega)
      have h2 : a * q + q = (a + 1) * q := by ring
      exact absurd (lt_of_lt_of_le (h2 ▸ ha.2) (le_trans h1 hb.1)) (lt_irrefl x)
    by_cases hq0 : q = 0
    · refine ⟨N - 1, ⟨by omega, ?_⟩, ?_⟩
      · rw [chunkRanges_getD S N (N - 1) (by omega)]
        simp only [← hq, hq0]
        rw [if_neg (by omega)]
        simpa using hx
      · intro j hj
        by_contra hne
        rcases Nat.lt_or_ge j (N - 1) with h | h
        · exact hkey j (N - 1) h (by omega) hj.2
            (by
              rw [chunkRanges_getD S N (N - 1) (by omega)]
              simp only [← hq, hq0]
              rw [if_neg (by omega)]
              simpa using hx)
        · omega
    · have hqpos : 0 < q := Nat.pos_of_ne_zero hq0
      by_cases hcase : x / q < N - 1
      · refine ⟨x / q, ⟨by omega, ?_⟩, ?_⟩
        · rw [chunkRanges_getD S N (x / q) (by omega)]
          simp only [← hq]
          rw [if_pos hcase]
          have hdm := Nat.div_add_mod x q
          have hmod : x % q < q := Nat.mod_lt x hqpos
          have hcomm : x / q * q = q * (x / q) := Nat.mul_comm _ _
          constructor
          · exact Nat.div_mul_le_self x q
          · omega
        · intro j hj
          by_contra hne
          rcases Nat.lt_or_ge j (x / q) with h | h
          · exact hkey j (x / q) h (by omega) hj.2
              (by
                rw [chunkRanges_getD S N (x / q) (by omega)]
                simp only [← hq]
                rw [if_pos hcase]
                have hdm := Nat.div_add_mod x q
                have hmod : x % q < q := Nat.mod_lt x hqpos
                have hcomm : x / q * q = q * (x / q) := Nat.mul_comm _ _
                constructor
                · exact Nat.div_mul_le_self x q
                · omega)
          · exact hkey (x / q) j (by omega) hj.1
              (by
                rw [chunkRanges_getD S N (x / q) (by omega)]
                simp only [← hq]
                rw [if_pos hcase]
                have hdm := Nat.div_add_mod x q
                have hmod : x % q < q := Nat.mod_lt x hqpos
                have hcomm : x / q * q = q * (x / q) := Nat.mul_comm _ _
                constructor
                · exact Nat.div_mul_le_self x q
                · omega)
              hj.2
      · refine ⟨N - 1, ⟨by omega, ?_⟩, ?_⟩
        · rw [chunkRanges_getD S N (N - 1) (by omega)]
          simp only [← hq]
          rw [if_neg (by omega)]
          have h1 : (N - 1) * q ≤ x / q * q := Nat.mul_le_mul_right q (by omega)
          have h2 : x / q * q ≤ x := Nat.div_mul_le_self x q
          constructor
          · omega
          · omega
        · intro j hj
          by_contra hne
          exact hkey j (N - 1) (by omega) (by omega) hj.2
            (by
              rw [chunkRanges_getD S N (N - 1) (by omega)]
              simp only [← hq]
              rw [if_neg (by omega)]
              have h1 : (N - 1) * q ≤ x / q * q := Nat.mul_le_mul_right q (by omega)
              have h2 : x / q * q ≤ x := Nat.div_mul_le_self x q
              omega)

/-- Witness for `distribute_work_partitions` at `S = 300`, `N = 3`. -/
theorem distribute_work_partitions_witness :
    0 < 300 ∧ 0 < 3 ∧ (chunkRanges 300 3).length = 3 :=
  ⟨by decide, by decide, (distribute_work_partitions 300 3 (by decide) (by decide)).1⟩

/-- C7: when no worker is healthy, `distribute_work` takes the early-return
branch: it reports `NoAvailableWorkers`, dispatches nothing, and returns the
coordinator state (worker registry, results, aggregate metrics) unchanged. -/
theorem distribute_work_no_available_workers (st : CoordState) (fp : String)
    (S : Nat) (h : healthyIds st.workers = []) :
    distribute_work st fp S = (st, DistOutcome.noAvailableWorkers) := by
  simp [distribute_work, h]

/-- Witness for `distribute_work_no_available_workers`. -/
theorem distribute_work_no_available_workers_witness :
    healthyIds idleState.workers = [] ∧
    distribute_work idleState "app.log" 300 = (idleState, DistOutcome.noAvailableWorkers) :=
  ⟨by decide, distribute_work_no_available_workers idleState "app.log" 300 (by decide)⟩

lemma lookupW_markUnhealthy (ws : List (String × WorkerRec)) (wid : String) :
    lookupW (markUnhealthy ws wid) wid =
      (lookupW ws wid).map (fun r => ⟨r.port, false⟩) := by
  induction ws with
  | nil => rfl
  | cons p rest ih =>
    obtain ⟨k, r⟩ := p
    by_cases hp : k = wid
    · simp [markUnhealthy, lookupW, hp]
    · simp [markUnhealthy, lookupW, hp, ih]

/-- C2 counterexample: when the failed worker's entry is redistributed with
two healthy workers remaining, `redistribute_failed_tasks` sends the task to
**both** of them, not to exactly one. -/
theorem handle_worker_failure_not_single_target :
    (handle_worker_failure failSt "w1").2 =
      [("w2", ⟨"app.log", 0, 100⟩), ("w3", ⟨"app.log", 0, 100⟩)] ∧
    (handle_worker_failure failSt "w1").2.length ≠ 1 :=
  ⟨by decide, by decide⟩

/-- C2 (amended): on a dispatch failure for a worker with a stored `results`
entry, the coordinator marks that worker unhealthy (`FAILED`) and re-sends
the entry's identical `filepath`/`start_offset`/`size` task to **every**
remaining healthy worker, one copy each; in particular, when exactly one
healthy worker remains, the verbatim task goes to that single worker. -/
theorem handle_worker_failure_redispatch (st : CoordState) (wid : String)
    (t : Task) (h : (popResult st.results wid).1 = some t) :
    (∀ r, lookupW (handle_worker_failure st wid).1.workers wid = some r →
      r.healthy = false) ∧
    (handle_worker_failure st wid).2 =
      (healthyIds (markUnhealthy st.workers wid)).map (fun w => (w, t)) ∧
    (∀ w0, healthyIds (markUnhealthy st.workers wid) = [w0] →
      (handle_worker_failure st wid).2 = [(w0, t)]) := by
  have hred : handle_worker_failure st wid =
      ({ st with workers := markUnhealthy st.workers wid,
                 results := (popResult st.results wid).2 },
        (healthyIds (markUnhealthy st.workers wid)).map (fun w => (w, t))) := by
    simp [handle_worker_failure, h]
  refine ⟨?_, ?_, ?_⟩
  · intro r hr
    rw [hred] at hr
    simp only at hr
    rw [lookupW_markUnhealthy] at hr
    cases hw : lookupW st.workers wid with
    | none => rw [hw] at hr; simp at hr
    | some r0 =>
      rw [hw] at hr
      simp at hr
      rw [← hr]
  · rw [hred]
  · intro w0 h0
    rw [hred]
    simp only [h0]
    rfl

/-- Witness for `handle_worker_failure_redispatch` at `failSt`. -/
theorem handle_worker_failure_redispatch_witness :
    (popResult failSt.results "w1").1 = some ⟨"app.log", 0, 100⟩ ∧
    (handle_worker_failure failSt "w1").2 =
      (healthyIds (markUnhealthy failSt.workers "w1")).map
        (fun w => (w, (⟨"app.log", 0, 100⟩ : Task))) :=
  ⟨by decide,
    (handle_worker_failure_redispatch failSt "w1" ⟨"app.log", 0, 100⟩ (by decide)).2.1⟩

/-- C3 counterexample: a line ending in a space has only three
whitespace-delimited fields, yet `from_line` parses it (the trailing empty
string after the third single-space split is `parts[3]`, so the
`len(parts) < 4` guard does not fire and the message is the empty string). -/
theorem parse_line_field_count_cex :
    (pyWsFields "2024-01-24 10:15:32.123 INFO ").length < 4 ∧
    (from_line "2024-01-24 10:15:32.123 INFO ").isSome = true :=
  ⟨by decide, by decide⟩

/-- C3 (amended): `from_line` returns a `MalformedLine` outcome (`none`)
exactly when `line.split(' ', 3)` — splitting on single spaces, counting
empty parts — yields fewer than four parts, or the timestamp
`parts[0] + " " + parts[1]` fails Python's `strptime` with format
`"%Y-%m-%d %H:%M:%S.%f"`; on every well-formed line the timestamp, level and
message are recovered exactly from the parts.  The operation is a total
function (no exception escapes on any input). -/
theorem parse_line_malformed_iff (line : String) :
    (from_line line = none ↔
      (pySplitSpace line 3).length < 4 ∨
      strptimeTs (partGet (pySplitSpace line 3) 0 ++ " " ++
        partGet (pySplitSpace line 3) 1) = none) ∧
    (∀ e, from_line line = some e →
      strptimeTs (partGet (pySplitSpace line 3) 0 ++ " " ++
        partGet (pySplitSpace line 3) 1) = some e.timestamp ∧
      e.level = partGet (pySplitSpace line 3) 2 ∧
      e.message = partGet (pySplitSpace line 3) 3) := by
  have hbody : from_line line =
      (if (pySplitSpace line 3).length < 4 then none
       else
        match strptimeTs (partGet (pySplitSpace line 3) 0 ++ " " ++
            partGet (pySplitSpace line 3) 1) with
        | none => none
        | some ts =>
          some ⟨ts, partGet (pySplitSpace line 3) 2, partGet (pySplitSpace line 3) 3,
            if hasMs (partGet (pySplitSpace line 3) 3).data then
              extractResponseTime (partGet (pySplitSpace line 3) 3)
            else none⟩) := rfl
  by_cases hlen : (pySplitSpace line 3).length < 4
  · rw [hbody, if_pos hlen]
    simp [hlen]
  · cases hts : strptimeTs (partGet (pySplitSpace line 3) 0 ++ " " ++
        partGet (pySplitSpace line 3) 1) with
    | none =>
      rw [hbody, if_neg hlen, hts]
      simp [hlen]
    | some ts =>
      rw [hbody, if_neg hlen, hts]
      constructor
      · simp [hlen]
      · intro e he
        injection he with he2
        subst he2
        exact ⟨rfl, rfl, rfl⟩

/-- Witness for `parse_line_malformed_iff`: an unparsable timestamp yields
`none`, and on a well-formed line the level is recovered as `parts[2]`. -/
theorem parse_line_malformed_iff_witness :
    from_line "2024-01-24 oops INFO x" = none ∧
    (⟨⟨2024, 1, 24, 10, 15, 32, 123000⟩, "INFO", "hello", none⟩ : LogEntry).level =
      partGet (pySplitSpace "2024-01-24 10:15:32.123 INFO hello" 3) 2 :=
  ⟨(parse_line_malformed_iff "2024-01-24 oops INFO x").1.mpr (Or.inr (by decide)),
    ((parse_line_malformed_iff "2024-01-24 10:15:32.123 INFO hello").2
      ⟨⟨2024, 1, 24, 10, 15, 32, 123000⟩, "INFO", "hello", none⟩ (by decide)).2.1⟩

/-- C4 counterexample: the message `"in 127ms at noon today"` contains `"ms"`
with the trailing integer `127` immediately preceding it, yet the parsed
entry carries no `response_time`: the code reads `message.split(' ')[3]`
(`"noon"` here), not the token before `"ms"`. -/
theorem parse_line_metric_cex :
    specTrailingIntBeforeMs "in 127ms at noon today" = some 127 ∧
    from_line "2024-01-24 10:15:32.123 INFO in 127ms at noon today" =
      some ⟨⟨2024, 1, 24, 10, 15, 32, 123000⟩, "INFO",
        "in 127ms at noon today", none⟩ :=
  ⟨by decide, by decide⟩

/-- C4 (amended): for every well-formed line whose message contains the
substring `"ms"`, the metric attempt is `int(message.split(' ')[3][:-2])` —
the fourth single-space token of the message with its last two characters
dropped; when that parses, it becomes `response_time`, and when it fails
(missing token or `ValueError`) the entry is still returned, merely without
the metric: well-formedness depends only on the part count and the
timestamp, never on the metric extraction. -/
theorem parse_line_metric_extraction (line : String) :
    (∀ e, from_line line = some e →
      e.response_time =
        (if hasMs e.message.data then extractResponseTime e.message else none)) ∧
    ((from_line line).isSome = true ↔
      ¬ (pySplitSpace line 3).length < 4 ∧
      (strptimeTs (partGet (pySplitSpace line 3) 0 ++ " " ++
        partGet (pySplitSpace line 3) 1)).isSome = true) := by
  have hbody : from_line line =
      (if (pySplitSpace line 3).length < 4 then none
       else
        match strptimeTs (partGet (pySplitSpace line 3) 0 ++ " " ++
            partGet (pySplitSpace line 3) 1) with
        | none => none
        | some ts =>
          some ⟨ts, partGet (pySplitSpace line 3) 2, partGet (pySplitSpace line 3) 3,
            if hasMs (partGet (pySplitSpace line 3) 3).data then
              extractResponseTime (partGet (pySplitSpace line 3) 3)
            else none⟩) := rfl
  by_cases hlen : (pySplitSpace line 3).length < 4
  · rw [hbody, if_pos hlen]
    simp [hlen]
  · cases hts : strptimeTs (partGet (pySplitSpace line 3) 0 ++ " " ++
        partGet (pySplitSpace line 3) 1) with
    | none =>
      rw [hbody, if_neg hlen, hts]
      simp [hlen]
    | some ts =>
      rw [hbody, if_neg hlen, hts]
      constructor
      · intro e he
        injection he with he2
        subst he2
        rfl
      · simp [hlen]

lemma lookupV_mergeBuckets {K : Type} [DecidableEq K] (its m : List (K × Nat))
    (k : K) :
    lookupV (mergeBuckets m its) k =
      match lookupV m k with
      | some v => some (v + keyTot its k)
      | none => if hasKeyB its k then some (keyTot its k) else none := by
  induction its generalizing m with
  | nil =>
    cases h : lookupV m k <;> simp [mergeBuckets, keyTot, hasKeyB, h]
  | cons p rest ih =>
    obtain ⟨k0, c0⟩ := p
    have hstep : mergeBuckets m ((k0, c0) :: rest) =
        mergeBuckets (bumpKey m k0 c0) rest := rfl
    rw [hstep, ih, lookupV_bumpKey]
    by_cases h : k = k0
    · subst h
      cases h0 : lookupV m k <;>
        simp [keyTot, hasKeyB, h0] <;> omega
    · cases h0 : lookupV m k <;>
        simp [keyTot, hasKeyB, h, h0, Ne.symm h]

lemma keyTot_eq_zero_of_not_hasKeyB {K : Type} [DecidableEq K]
    (its : List (K × Nat)) (k : K) (h : hasKeyB its k = false) :
    keyTot its k = 0 := by
  induction its with
  | nil => rfl
  | cons p rest ih =>
    obtain ⟨k1, c⟩ := p
    simp [hasKeyB] at h
    simp [keyTot, h.1, ih h.2]

lemma aggEq_refl (s : AggMetrics) : AggEq s s :=
  ⟨rfl, rfl, rfl, rfl, rfl, rfl, fun _ => rfl⟩

lemma aggEq_trans {s t u : AggMetrics} (h1 : AggEq s t) (h2 : AggEq t u) :
    AggEq s u :=
  ⟨h1.1.trans h2.1, h1.2.1.trans h2.2.1, h1.2.2.1.trans h2.2.2.1,
    h1.2.2.2.1.trans h2.2.2.2.1, h1.2.2.2.2.1.trans h2.2.2.2.2.1,
    h1.2.2.2.2.2.1.trans h2.2.2.2.2.2.1,
    fun k => (h1.2.2.2.2.2.2 k).trans (h2.2.2.2.2.2.2 k)⟩

lemma update_metrics_congr (s t : AggMetrics) (d : NewData) (h : AggEq s t) :
    AggEq (update_metrics s d) (update_metrics t d) := by
  obtain ⟨h1, h2, h3, h4, h5, h6, h7⟩ := h
  refine ⟨?_, ?_, ?_, ?_, ?_, ?_, ?_⟩ <;>
    simp only [update_metrics, h1, h2, h3, h4, h5, h6]
  intro k
  rw [lookupV_mergeBuckets, lookupV_mergeBuckets, h7 k]

lemma update_metrics_comm (s : AggMetrics) (a b : NewData) :
    AggEq (update_metrics (update_metrics s a) b)
      (update_metrics (update_metrics s b) a) := by
  have hc : s.total_requests + a.request_count + b.request_count =
      s.total_requests + b.request_count + a.request_count := by omega
  have he : s.total_errors + a.error_count + b.error_count =
      s.total_errors + b.error_count + a.error_count := by omega
  have ht : s.total_response_time + a.avg_response_time * (a.request_count : Rat) +
        b.avg_response_time * (b.request_count : Rat) =
      s.total_response_time + b.avg_response_time * (b.request_count : Rat) +
        a.avg_response_time * (a.request_count : Rat) := by ring
  refine ⟨?_, ?_, ?_, ?_, ?_, ?_, ?_⟩
  · simp only [update_metrics]; omega
  · simp only [update_metrics]; omega
  · simp only [update_metrics]; exact ht
  · rfl
  · simp only [update_metrics]
    by_cases hpos : 0 < s.total_requests + a.request_count + b.request_count
    · rw [if_pos (by omega : 0 < s.total_requests + a.request_count + b.request_count),
        if_pos (by omega : 0 < s.total_requests + b.request_count + a.request_count),
        hc, he]
    · rw [if_neg (by omega : ¬ 0 < s.total_requests + a.request_count + b.request_count),
        if_neg (by omega : ¬ 0 < s.total_requests + b.request_count + a.request_count),
        if_neg (by omega : ¬ 0 < s.total_requests + a.request_count),
        if_neg (by omega : ¬ 0 < s.total_requests + b.request_count)]
  · simp only [update_metrics]
    by_cases hpos : 0 < s.total_requests + a.request_count + b.request_count
    · rw [if_pos (by omega : 0 < s.total_requests + a.request_count + b.request_count),
        if_pos (by omega : 0 < s.total_requests + b.request_count + a.request_count),
        hc, ht]
    · rw [if_neg (by omega : ¬ 0 < s.total_requests + a.request_count + b.request_count),
        if_neg (by omega : ¬ 0 < s.total_requests + b.request_count + a.request_count),
        if_neg (by omega : ¬ 0 < s.total_requests + a.request_count),
        if_neg (by omega : ¬ 0 < s.total_requests + b.request_count)]
  · intro k
    simp only [update_metrics]
    rw [lookupV_mergeBuckets, lookupV_mergeBuckets, lookupV_mergeBuckets,
      lookupV_mergeBuckets]
    cases ha : hasKeyB a.request_count_per_second k with
    | false =>
      have hza := keyTot_eq_zero_of_not_hasKeyB _ k ha
      cases hb : hasKeyB b.request_count_per_second k with
      | false =>
        have hzb := keyTot_eq_zero_of_not_hasKeyB _ k hb
        cases h0 : lookupV s.request_count_per_second k <;> simp [hza, hzb]
      | true =>
        cases h0 : lookupV s.request_count_per_second k <;> simp [hza] <;> omega
    | true =>
      cases hb : hasKeyB b.request_count_per_second k with
      | false =>
        have hzb := keyTot_eq_zero_of_not_hasKeyB _ k hb
        cases h0 : lookupV s.request_count_per_second k <;> simp [hzb] <;> omega
      | true =>
        cases h0 : lookupV s.request_count_per_second k <;> simp <;> omega

lemma foldl_update_congr (l : List NewData) (s t : AggMetrics) (h : AggEq s t) :
    AggEq (l.foldl update_metrics s) (l.foldl update_metrics t) := by
  induction l generalizing s t with
  | nil => exact h
  | cons d rest ih => exact ih _ _ (update_metrics_congr s t d h)

lemma foldl_update_perm {l1 l2 : List NewData} (h : l1.Perm l2) :
    ∀ s, AggEq (l1.foldl update_metrics s) (l2.foldl update_metrics s) := by
  induction h with
  | nil => exact fun s => aggEq_refl s
  | cons x h ih => exact fun s => ih (update_metrics s x)
  | swap x y l =>
    exact fun s => foldl_update_congr l _ _ (update_metrics_comm s y x)
  | trans h1 h2 ih1 ih2 => exact fun s => aggEq_trans (ih1 s) (ih2 s)

/-- C5: merging any finite collection of chunk summaries into the empty
initial analyzer state is order-invariant — for any permutation of the
summary list, every field of the final state agrees (scalar fields equal,
bucket dicts equal as key→value maps, which is Python `dict` equality). -/
theorem merge_order_invariant (l1 l2 : List NewData) (h : l1.Perm l2) :
    AggEq (l1.foldl update_metrics initMetrics)
      (l2.foldl update_metrics initMetrics) :=
  foldl_update_perm h initMetrics

/-- Witness for `merge_order_invariant` on a concrete two-element swap. -/
theorem merge_order_invariant_witness :
    ([sampleD1, sampleD2] : List NewData).Perm [sampleD2, sampleD1] ∧
    AggEq ([sampleD1, sampleD2].foldl update_metrics initMetrics)
      ([sampleD2, sampleD1].foldl update_metrics initMetrics) :=
  ⟨List.Perm.swap sampleD2 sampleD1 [],
    merge_order_invariant [sampleD1, sampleD2] [sampleD2, sampleD1]
      (List.Perm.swap sampleD2 sampleD1 [])⟩

/-- C6: `update_metrics` is not idempotent — applying the same summary twice
to any analyzer state adds exactly twice the summary's contribution to
`total_requests`, `total_errors`, `total_response_time` (contribution
`avg_response_time * request_count`) and to every
`request_count_per_second` bucket. -/
theorem merge_double_counts (s : AggMetrics) (d : NewData) :
    (update_metrics (update_metrics s d) d).total_requests =
      s.total_requests + 2 * d.request_count ∧
    (update_metrics (update_metrics s d) d).total_errors =
      s.total_errors + 2 * d.error_count ∧
    (update_metrics (update_metrics s d) d).total_response_time =
      s.total_response_time + 2 * (d.avg_response_time * (d.request_count : Rat)) ∧
    ∀ k, (lookupV (update_metrics (update_metrics s d) d).request_count_per_second
        k).getD 0 =
      (lookupV s.request_count_per_second k).getD 0 +
        2 * keyTot d.request_count_per_second k := by
  refine ⟨?_, ?_, ?_, ?_⟩
  · simp only [update_metrics]; omega
  · simp only [update_metrics]; omega
  · simp only [update_metrics]; ring
  · intro k
    simp only [update_metrics]
    rw [lookupV_mergeBuckets, lookupV_mergeBuckets]
    cases hd : hasKeyB d.request_count_per_second k with
    | false =>
      have hz := keyTot_eq_zero_of_not_hasKeyB _ k hd
      cases h0 : lookupV s.request_count_per_second k <;> simp [hz]
    | true =>
      cases h0 : lookupV s.request_count_per_second k <;> simp <;> omega

lemma foldl_procLine_spec (lines : List String) (acc : WAcc) :
    (lines.foldl procLine acc).request_times =
      acc.request_times ++ (lines.filterMap from_line).map (fun e => e.timestamp) ∧
    (lines.foldl procLine acc).total_requests =
      acc.total_requests + (lines.filterMap from_line).length ∧
    (lines.foldl procLine acc).error_count =
      acc.error_count +
        (lines.filterMap from_line).countP (fun e => e.level = "ERROR") ∧
    (lines.foldl procLine acc).total_response_time =
      acc.total_response_time +
        ((lines.filterMap from_line).map (fun e => e.response_time.getD 0)).sum := by
  induction lines generalizing acc with
  | nil => simp
  | cons l rest ih =>
    cases h : from_line l with
    | none =>
      have hproc : procLine acc l = acc := by simp [procLine, h]
      simpa [List.filterMap_cons, h, hproc] using ih acc
    | some e =>
      have hproc : procLine acc l =
          { request_times := acc.request_times ++ [e.timestamp]
            total_requests := acc.total_requests + 1
            error_count := acc.error_count + (if e.level = "ERROR" then 1 else 0)
            total_response_time := acc.total_response_time + e.response_time.getD 0 } := by
        simp [procLine, h]
        cases e.response_time <;> simp [Option.getD]
      obtain ⟨ih1, ih2, ih3, ih4⟩ := ih (procLine acc l)
      rw [hproc] at ih1 ih2 ih3 ih4
      refine ⟨?_, ?_, ?_, ?_⟩
      · rw [List.foldl_cons, hproc, ih1]
        simp [List.filterMap_cons, h]
      · rw [List.foldl_cons, hproc, ih2]
        simp [List.filterMap_cons, h]
        omega
      · rw [List.foldl_cons, hproc, ih3]
        simp [List.filterMap_cons, h, List.countP_cons]
        by_cases he : e.level = "ERROR" <;> simp [he] <;> omega
      · rw [List.foldl_cons, hproc, ih4]
        simp [List.filterMap_cons, h]
        ring

lemma lookupV_rcps_fold (ts : List Timestamp) (m : List (Timestamp × Nat))
    (k : Timestamp) :
    (lookupV (ts.foldl (fun m2 t => bumpKey m2 (truncToSecond t) 1) m) k).getD 0 =
      (lookupV m k).getD 0 + ts.countP (fun t => truncToSecond t = k) := by
  induction ts generalizing m with
  | nil => simp
  | cons t rest ih =>
    rw [List.foldl_cons, ih, lookupV_bumpKey]
    by_cases h : k = truncToSecond t
    · subst h
      simp [List.countP_cons]
      omega
    · simp [h, List.countP_cons, Ne.symm h]

lemma valSum_rcps_fold (ts : List Timestamp) (m : List (Timestamp × Nat)) :
    valSum (ts.foldl (fun m2 t => bumpKey m2 (truncToSecond t) 1) m) =
      valSum m + ts.length := by
  induction ts generalizing m with
  | nil => simp
  | cons t rest ih =>
    rw [List.foldl_cons, ih, valSum_bumpKey]
    simp [List.length_cons]
    omega

/-- C8: processing a chunk counts exactly the successfully parsed lines:
`request_count` is the number of lines `from_line` accepts, `error_count`
counts those whose level is exactly `"ERROR"`, `total_response_time` sums the
`response_time` metrics that are present, and the per-second dict counts
entries by their timestamp truncated to whole seconds; malformed lines
contribute to no field.  In particular the scenario chunk of one `ERROR`
line and one malformed line yields `request_count = 1`, `error_count = 1`. -/
theorem process_work_counts (chunk : String) :
    (process_work chunk).request_count =
      ((pySplitlines chunk).filterMap from_line).length ∧
    (process_work chunk).error_count =
      ((pySplitlines chunk).filterMap from_line).countP
        (fun e => e.level = "ERROR") ∧
    (process_work chunk).total_response_time =
      (((pySplitlines chunk).filterMap from_line).map
        (fun e => e.response_time.getD 0)).sum ∧
    (∀ k, (lookupV (process_work chunk).request_count_per_second k).getD 0 =
      ((pySplitlines chunk).filterMap from_line).countP
        (fun e => truncToSecond e.timestamp = k)) ∧
    (process_work
        "2024-01-24 10:15:32.123 ERROR Database failure\nnot-a-log-line").request_count = 1 ∧
    (process_work
        "2024-01-24 10:15:32.123 ERROR Database failure\nnot-a-log-line").error_count = 1 := by
  obtain ⟨h1, h2, h3, h4⟩ := foldl_procLine_spec (pySplitlines chunk) ⟨[], 0, 0, 0⟩
  refine ⟨?_, ?_, ?_, ?_, by decide, by decide⟩
  · show ((pySplitlines chunk).foldl procLine ⟨[], 0, 0, 0⟩).total_requests = _
    rw [h2]; simp
  · show ((pySplitlines chunk).foldl procLine ⟨[], 0, 0, 0⟩).error_count = _
    rw [h3]; simp
  · show ((pySplitlines chunk).foldl procLine ⟨[], 0, 0, 0⟩).total_response_time = _
    rw [h4]; simp
  · intro k
    show (lookupV (((pySplitlines chunk).foldl procLine
        ⟨[], 0, 0, 0⟩).request_times.foldl
        (fun m2 t => bumpKey m2 (truncToSecond t) 1) []) k).getD 0 = _
    rw [lookupV_rcps_fold, h1]
    simp [List.countP_map, Function.comp_def, lookupV]

/-- C9: every chunk summary satisfies the invariant
`error_count ≤ request_count` and the per-second bucket counts sum to
`request_count`, whatever the chunk content. -/
theorem chunk_summary_invariant (chunk : String) :
    (process_work chunk).error_count ≤ (process_work chunk).request_count ∧
    valSum (process_work chunk).request_count_per_second =
      (process_work chunk).request_count := by
  obtain ⟨h1, h2, h3, h4⟩ := foldl_procLine_spec (pySplitlines chunk) ⟨[], 0, 0, 0⟩
  constructor
  · show ((pySplitlines chunk).foldl procLine ⟨[], 0, 0, 0⟩).error_count ≤
      ((pySplitlines chunk).foldl procLine ⟨[], 0, 0, 0⟩).total_requests
    rw [h2, h3]
    simp only [Nat.zero_add]
    exact List.countP_le_length _
  · show valSum (((pySplitlines chunk).foldl procLine
        ⟨[], 0, 0, 0⟩).request_times.foldl
        (fun m2 t => bumpKey m2 (truncToSecond t) 1) []) =
      ((pySplitlines chunk).foldl procLine ⟨[], 0, 0, 0⟩).total_requests
    rw [valSum_rcps_fold, h1, h2]
    simp [valSum]

/-- C10: the worker reports only `avg_response_time`
(`total_response_time / request_count`, or `0` for an empty chunk) and the
analyzer reconstructs the chunk total as `avg_response_time * request_count`;
in exact rational arithmetic the product equals the worker's internal
`total_response_time` for every chunk (including empty ones), so the
aggregate `total_response_time` is exactly the sum of the per-chunk totals. -/
theorem avg_response_time_roundtrip (chunk : String) (chunks : List String) :
    (process_work chunk).avg_response_time *
        ((process_work chunk).request_count : Rat) =
      ((process_work chunk).total_response_time : Rat) ∧
    ((chunks.map (fun c => toNewData (process_work c))).foldl update_metrics
        initMetrics).total_response_time =
      (chunks.map (fun c => ((process_work c).total_response_time : Rat))).sum := by
  have h1 : ∀ c : String, (process_work c).avg_response_time *
      ((process_work c).request_count : Rat) =
      ((process_work c).total_response_time : Rat) := by
    intro c
    obtain ⟨g1, g2, g3, g4⟩ := foldl_procLine_spec (pySplitlines c) ⟨[], 0, 0, 0⟩
    show (if ((pySplitlines c).foldl procLine ⟨[], 0, 0, 0⟩).total_requests > 0 then
        (((pySplitlines c).foldl procLine ⟨[], 0, 0, 0⟩).total_response_time : Rat) /
          (((pySplitlines c).foldl procLine ⟨[], 0, 0, 0⟩).total_requests : Rat)
      else 0) * (((pySplitlines c).foldl procLine ⟨[], 0, 0, 0⟩).total_requests : Rat) =
      (((pySplitlines c).foldl procLine ⟨[], 0, 0, 0⟩).total_response_time : Rat)
    by_cases hpos : 0 < ((pySplitlines c).foldl procLine ⟨[], 0, 0, 0⟩).total_requests
    · rw [if_pos hpos]
      rw [div_mul_cancel₀]
      exact Nat.cast_ne_zero.mpr (by omega)
    · rw [if_neg hpos]
      have hq : ((pySplitlines c).foldl procLine ⟨[], 0, 0, 0⟩).total_requests = 0 := by
        omega
      have hlen : ((pySplitlines c).filterMap from_line).length = 0 := by omega
      have hnil : (pySplitlines c).filterMap from_line = [] :=
        List.length_eq_zero.mp hlen
      have htrt : ((pySplitlines c).foldl procLine ⟨[], 0, 0, 0⟩).total_response_time = 0 := by
        rw [g4, hnil]
        simp
      rw [htrt]
      simp
  refine ⟨h1 chunk, ?_⟩
  have h2 : ∀ (cs : List String) (s : AggMetrics),
      ((cs.map (fun c => toNewData (process_work c))).foldl update_metrics
          s).total_response_time =
        s.total_response_time +
          (cs.map (fun c => ((process_work c).total_response_time : Rat))).sum := by
    intro cs
    induction cs with
    | nil => intro s; simp
    | cons c rest ih =>
      intro s
      simp only [List.map_cons, List.foldl_cons, List.sum_cons]
      rw [ih]
      have hupd : (update_metrics s (toNewData (process_work c))).total_response_time =
          s.total_response_time + ((process_work c).total_response_time : Rat) := by
        simp only [update_metrics, toNewData]
        rw [h1 c]
      rw [hupd]
      ring
  rw [h2 chunks initMetrics]
  simp [initMetrics]

/-- Witness for `parse_line_metric_extraction`: the canonical line gets
`response_time = 127`, matching the code's extraction from its message. -/
theorem parse_line_metric_extraction_witness :
    (⟨⟨2024, 1, 24, 10, 15, 32, 123000⟩, "INFO", "Request processed in 127ms",
        some 127⟩ : LogEntry).response_time =
      (if hasMs ("Request processed in 127ms" : String).data then
        extractResponseTime "Request processed in 127ms" else none) :=
  (parse_line_metric_extraction
    "2024-01-24 10:15:32.123 INFO Request processed in 127ms").1
    ⟨⟨2024, 1, 24, 10, 15, 32, 123000⟩, "INFO", "Request processed in 127ms",
      some 127⟩ (by decide)

end LogAnalyzer
